import Mathlib

/-!
Verification development for the fishdrone repository.

The repository consists of four FreeCAD batch scripts that construct a
parametric CSG assembly (a fishing-drone hull and sub-assemblies) from
geometric primitives (boxes, spheres, cylinders, cones, tori) combined by
boolean operations (MultiFuse, Cut), then save a document and export a STEP
file.  Below, each script function relevant to a claim is shallowly embedded
as a pure Lean function: an object created by doc.addObject becomes an entry
of type Obj; kernel recomputation calls (doc.recompute) become explicit
events; module-level constants become function parameters.  Components that
the specification describes but that are not part of src/ (the Evaluator and
the geometric kernel, which the scripts delegate to FreeCAD) are modelled
from the specification text and marked as such in their doc comments.
-/

namespace Fishdrone

/-! ## Geometric data model shared by the script embeddings -/

/-- A coordinate value.  Most coordinates in the scripts are exact rational
expressions; strut and blade placements additionally use
cos(radians(angle)) * scale + base and sin(radians(angle)) * scale + base,
which are kept symbolically (the representation determines the value, so
equality of representations implies equality of the real coordinates). -/
inductive Coord
  | q (v : ℚ)
  | cosMul (angleDeg : ℚ) (scale : ℚ) (base : ℚ)
  | sinMul (angleDeg : ℚ) (scale : ℚ) (base : ℚ)
deriving DecidableEq

/-- A translation vector with symbolic coordinates. -/
structure Vec3C where
  x : Coord
  y : Coord
  z : Coord
deriving DecidableEq

/-- Plain rational translation vector. -/
def cv (a b c : ℚ) : Vec3C := ⟨Coord.q a, Coord.q b, Coord.q c⟩

/-- A rotation, as used by the scripts: either a yaw-pitch-roll triple
(FreeCAD.Rotation with three numbers) or an axis-angle pair
(FreeCAD.Rotation with a vector and an angle in degrees). -/
inductive Rot
  | euler (a b c : ℚ)
  | axisAngle (ax ay az deg : ℚ)
deriving DecidableEq

/-- A placement: translation plus rotation. -/
structure Placement where
  pos : Vec3C
  rot : Rot
deriving DecidableEq

/-- The identity placement (FreeCAD default for objects whose Placement the
scripts do not set, such as MultiFuse and Cut results). -/
def idPl : Placement := ⟨cv 0 0 0, Rot.euler 0 0 0⟩

/-- Primitive shape descriptions used by the scripts. -/
inductive ShapeKind
  | box (length width height : ℚ)
  | sphere (radius : ℚ)
  | cylinder (radius height : ℚ)
  | cone (radius1 radius2 height : ℚ)
  | torus (radius1 radius2 : ℚ)
deriving DecidableEq

/-- A document object: a primitive, a MultiFuse of named operands, or a Cut
of a named base against a named tool.  Operands are referenced by name,
mirroring the FreeCAD document structure. -/
inductive ObjKind
  | prim (s : ShapeKind)
  | multiFuse (operands : List String)
  | cut (base tool : String)
deriving DecidableEq

/-- An object added to the document by doc.addObject. -/
structure Obj where
  name : String
  kind : ObjKind
  placement : Placement
deriving DecidableEq

/-- An observable build event of a script: adding an object to the document,
a kernel recomputation call (doc.recompute), or raising a ValidationError
naming a parameter and its value.  The scripts in src/ contain no raise
statement, hence the embeddings emit no validationError event; the
constructor exists so that its absence can be stated. -/
inductive BuildEvent
  | add (o : Obj)
  | recompute
  | validationError (param : String) (value : ℚ)
deriving DecidableEq

/-- Whether an event is a ValidationError. -/
def isValidationEv : BuildEvent → Bool
  | BuildEvent.validationError _ _ => true
  | _ => false

/-! ## Embedding of create_advanced_hull.py, create_main_body (lines 34-120)

Module constants main_body_length, main_body_width, main_body_height,
wall_thickness become the parameters L, W, H, T.  The function creates the
outer shell (CenterBody box, Nose and Tail spheres, fused as BodyOuter),
the inner shell (CenterInner box, NoseInner and TailInner spheres, fused as
BodyInner) and cuts the inner from the outer as HollowBody, interleaving
doc.recompute calls exactly where the source does.  The source performs no
validation of any dimension. -/

def advMainBodyTrace (L W H T : ℚ) : List BuildEvent :=
  [ BuildEvent.add ⟨"CenterBody", ObjKind.prim (ShapeKind.box (L - 100) W H),
      ⟨cv (-(L - 100) / 2) (-W / 2) (-H / 2), Rot.euler 0 0 0⟩⟩,
    BuildEvent.recompute,
    BuildEvent.add ⟨"Nose", ObjKind.prim (ShapeKind.sphere (H / 2)),
      ⟨cv (-(L - 100) / 2) 0 0, Rot.euler 0 0 0⟩⟩,
    BuildEvent.recompute,
    BuildEvent.add ⟨"Tail", ObjKind.prim (ShapeKind.sphere (H / 2)),
      ⟨cv ((L - 100) / 2) 0 0, Rot.euler 0 0 0⟩⟩,
    BuildEvent.recompute,
    BuildEvent.add ⟨"BodyOuter", ObjKind.multiFuse ["CenterBody", "Nose", "Tail"], idPl⟩,
    BuildEvent.recompute,
    BuildEvent.add ⟨"CenterInner",
      ObjKind.prim (ShapeKind.box (L - 100 - 2 * T) (W - 2 * T) (H - 2 * T)),
      ⟨cv (-(L - 100) / 2 + T) (-W / 2 + T) (-H / 2 + T), Rot.euler 0 0 0⟩⟩,
    BuildEvent.add ⟨"NoseInner", ObjKind.prim (ShapeKind.sphere (H / 2 - T)),
      ⟨cv (-(L - 100) / 2 + T / 2) 0 0, Rot.euler 0 0 0⟩⟩,
    BuildEvent.add ⟨"TailInner", ObjKind.prim (ShapeKind.sphere (H / 2 - T)),
      ⟨cv ((L - 100) / 2 - T / 2) 0 0, Rot.euler 0 0 0⟩⟩,
    BuildEvent.recompute,
    BuildEvent.add ⟨"BodyInner", ObjKind.multiFuse ["CenterInner", "NoseInner", "TailInner"], idPl⟩,
    BuildEvent.recompute,
    BuildEvent.add ⟨"HollowBody", ObjKind.cut "BodyOuter" "BodyInner", idPl⟩,
    BuildEvent.recompute ]

/-- The build trace of create_main_body for the invalid-input scenario of
the specification: wallThickness 200 with the module values
length 350, width 280, height 180. -/
def advBadTrace : List BuildEvent := advMainBodyTrace 350 280 180 200

/-! ## Embedding of create_hull.py, module tail (lines 86-96 and following)

The script saves the document (doc.saveAs, line 87), then attempts the STEP
export inside try/except (lines 92-96); the except branch only prints the
error, touching neither the saved document nor the rest of the script,
which continues with the specification printout (lines 98-107).  The
observable outcome is embedded as a record, parametric in the result of the
fallible Part.export call. -/

structure HullRunResult where
  savedDoc : Option String
  stepExported : Bool
  exportErrorReported : Bool
  specsPrinted : Bool
deriving DecidableEq

/-- Path of the persisted document written by create_hull.py. -/
def hullDocFile : String := "/home/ymizushi/Develop/ymizushi/fishdrone/fishing_drone_hull.FCStd"

def runHullSaveAndExport (exportResult : Except String Unit) : HullRunResult :=
  let saved := some hullDocFile
  match exportResult with
  | Except.ok _ =>
      { savedDoc := saved, stepExported := true, exportErrorReported := false, specsPrinted := true }
  | Except.error _ =>
      { savedDoc := saved, stepExported := false, exportErrorReported := true, specsPrinted := true }

/-! ## Embedding of create_advanced_hull.py, create_thruster_mount (lines 122-201)

Module constants thruster_diameter and thruster_length become td and tl.
The function creates the motor housing cylinder at the given position, the
propeller-guard ring as a Cut of two cylinders positioned at the thruster
end, three mounting struts 120 degrees apart (their x and y offsets are
cos/sin expressions, kept symbolically), and fuses everything as
ThrusterAssembly_name, which is the value the source returns.  The
embedding returns the list of objects added to the document together with
the returned assembly object. -/

def advStrut (td tl : ℚ) (px py pz : ℚ) (name : String) (i : ℕ) (angle : ℚ) : Obj :=
  { name := "Strut_" ++ name ++ "_" ++ toString i,
    kind := ObjKind.prim (ShapeKind.box 25 3 3),
    placement :=
      ⟨⟨Coord.cosMul angle (td / 2 + 10) px,
        Coord.sinMul angle (td / 2 + 10) py,
        Coord.q (pz + tl / 2)⟩,
       Rot.euler 0 0 angle⟩ }

def createThrusterMount (td tl : ℚ) (px py pz : ℚ) (rot : Rot) (name : String) :
    List Obj × Obj :=
  let motor : Obj :=
    { name := "MotorHousing_" ++ name,
      kind := ObjKind.prim (ShapeKind.cylinder (td / 2) tl),
      placement := ⟨cv px py pz, rot⟩ }
  let guardOuter : Obj :=
    { name := "GuardOuter_" ++ name,
      kind := ObjKind.prim (ShapeKind.cylinder (td / 2 + 15) 3),
      placement := ⟨cv px py (pz + tl), rot⟩ }
  let guardInner : Obj :=
    { name := "GuardInner_" ++ name,
      kind := ObjKind.prim (ShapeKind.cylinder (td / 2 + 5) 5),
      placement := ⟨cv px py (pz + tl - 1), rot⟩ }
  let guardRing : Obj :=
    { name := "GuardRing_" ++ name,
      kind := ObjKind.cut ("GuardOuter_" ++ name) ("GuardInner_" ++ name),
      placement := idPl }
  let strut0 := advStrut td tl px py pz name 0 0
  let strut1 := advStrut td tl px py pz name 1 120
  let strut2 := advStrut td tl px py pz name 2 240
  let assembly : Obj :=
    { name := "ThrusterAssembly_" ++ name,
      kind := ObjKind.multiFuse
        ["MotorHousing_" ++ name, "GuardRing_" ++ name,
         "Strut_" ++ name ++ "_0", "Strut_" ++ name ++ "_1", "Strut_" ++ name ++ "_2"],
      placement := idPl }
  ([motor, guardOuter, guardInner, guardRing, strut0, strut1, strut2, assembly], assembly)

/-! ## Embedding of create_advanced_hull.py, create_thruster_layout (lines 203-253)

Six thruster mounts: four horizontal (axis (0,1,0), angles 90 or -90) and
two vertical (axis (0,0,0), angle 0, as the source writes it), at the six
positions derived from the main-body dimensions L, W, H.  The source
returns the list of the six assemblies. -/

def createThrusterLayout (L W H td tl : ℚ) : List (List Obj × Obj) :=
  [ createThrusterMount td tl (-(L / 2) - 20) (W / 2 - 40) 0
      (Rot.axisAngle 0 1 0 90) "FrontLeft",
    createThrusterMount td tl (-(L / 2) - 20) (-(W / 2) + 40) 0
      (Rot.axisAngle 0 1 0 90) "FrontRight",
    createThrusterMount td tl (L / 2 + 20) (W / 2 - 40) 0
      (Rot.axisAngle 0 1 0 (-90)) "RearLeft",
    createThrusterMount td tl (L / 2 + 20) (-(W / 2) + 40) 0
      (Rot.axisAngle 0 1 0 (-90)) "RearRight",
    createThrusterMount td tl 0 50 (H / 2 + 10)
      (Rot.axisAngle 0 0 0 0) "TopCenter",
    createThrusterMount td tl 0 (-50) (-(H / 2) - 10)
      (Rot.axisAngle 0 0 0 0) "BottomCenter" ]

/-- The thruster layout at the module constants of create_advanced_hull.py:
main body 350 x 280 x 180, thruster diameter 60, thruster length 80. -/
def stdThrusterLayout : List (List Obj × Obj) := createThrusterLayout 350 280 180 60 80

/-- The six top-level assemblies returned by create_thruster_layout. -/
def layoutAssemblies (layout : List (List Obj × Obj)) : List Obj := layout.map Prod.snd

/-- The mount position handed to each create_thruster_mount call (the
placement of the motor housing, the first object each call creates). -/
def layoutMountPositions (layout : List (List Obj × Obj)) : List Placement :=
  layout.map fun t => (t.1.headD ⟨"", ObjKind.prim (ShapeKind.sphere 0), idPl⟩).placement

/-! ## Embedding of create_detailed_drone.py, create_main_body (lines 52-127)

Same construction pattern as the advanced hull: outer shell (CenterBody,
Nose, Tail fused as BodyOuter), inner shell (CenterInner, NoseInner,
TailInner fused as BodyInner), and HollowBody as the Cut of BodyOuter
against BodyInner.  Module constants main_body_length, main_body_width,
main_body_height, wall_thickness become L, W, H, T.  The internal ribs the
function additionally creates (create_internal_ribs) are separate box
objects and are not part of the HollowBody solid, so they are outside this
embedding, which captures the HollowBody construction the claim compares. -/

def detailedMainBodyObjs (L W H T : ℚ) : List Obj :=
  [ ⟨"CenterBody", ObjKind.prim (ShapeKind.box (L - 100) W H),
      ⟨cv (-(L - 100) / 2) (-W / 2) (-H / 2), Rot.euler 0 0 0⟩⟩,
    ⟨"Nose", ObjKind.prim (ShapeKind.sphere (H / 2)),
      ⟨cv (-(L - 100) / 2) 0 0, Rot.euler 0 0 0⟩⟩,
    ⟨"Tail", ObjKind.prim (ShapeKind.sphere (H / 2)),
      ⟨cv ((L - 100) / 2) 0 0, Rot.euler 0 0 0⟩⟩,
    ⟨"BodyOuter", ObjKind.multiFuse ["CenterBody", "Nose", "Tail"], idPl⟩,
    ⟨"CenterInner", ObjKind.prim (ShapeKind.box (L - 100 - 2 * T) (W - 2 * T) (H - 2 * T)),
      ⟨cv (-(L - 100) / 2 + T) (-W / 2 + T) (-H / 2 + T), Rot.euler 0 0 0⟩⟩,
    ⟨"NoseInner", ObjKind.prim (ShapeKind.sphere (H / 2 - T)),
      ⟨cv (-(L - 100) / 2 + T / 2) 0 0, Rot.euler 0 0 0⟩⟩,
    ⟨"TailInner", ObjKind.prim (ShapeKind.sphere (H / 2 - T)),
      ⟨cv ((L - 100) / 2 - T / 2) 0 0, Rot.euler 0 0 0⟩⟩,
    ⟨"BodyInner", ObjKind.multiFuse ["CenterInner", "NoseInner", "TailInner"], idPl⟩,
    ⟨"HollowBody", ObjKind.cut "BodyOuter" "BodyInner", idPl⟩ ]

/-! ## Embedding of create_optimized_detailed_drone.py, create_body (lines 33-109)

Independent translation of the optimized variant: center box, nose and
tail spheres fused as BodyOuter; CenterInner, NoseInner, TailInner fused
as BodyInner; HollowBody cuts BodyInner from BodyOuter.  Module constants
main_body_length, main_body_width, main_body_height, wall_thickness become
L, W, H, T.  The source writes the placement arithmetic as
-(main_body_length-100)/2 + wall_thickness etc., identically to the
detailed variant. -/

def optimizedBodyObjs (L W H T : ℚ) : List Obj :=
  [ ⟨"CenterBody", ObjKind.prim (ShapeKind.box (L - 100) W H),
      ⟨cv (-(L - 100) / 2) (-W / 2) (-H / 2), Rot.euler 0 0 0⟩⟩,
    ⟨"Nose", ObjKind.prim (ShapeKind.sphere (H / 2)),
      ⟨cv (-(L - 100) / 2) 0 0, Rot.euler 0 0 0⟩⟩,
    ⟨"Tail", ObjKind.prim (ShapeKind.sphere (H / 2)),
      ⟨cv ((L - 100) / 2) 0 0, Rot.euler 0 0 0⟩⟩,
    ⟨"BodyOuter", ObjKind.multiFuse ["CenterBody", "Nose", "Tail"], idPl⟩,
    ⟨"CenterInner", ObjKind.prim (ShapeKind.box (L - 100 - 2 * T) (W - 2 * T) (H - 2 * T)),
      ⟨cv (-(L - 100) / 2 + T) (-W / 2 + T) (-H / 2 + T), Rot.euler 0 0 0⟩⟩,
    ⟨"NoseInner", ObjKind.prim (ShapeKind.sphere (H / 2 - T)),
      ⟨cv (-(L - 100) / 2 + T / 2) 0 0, Rot.euler 0 0 0⟩⟩,
    ⟨"TailInner", ObjKind.prim (ShapeKind.sphere (H / 2 - T)),
      ⟨cv ((L - 100) / 2 - T / 2) 0 0, Rot.euler 0 0 0⟩⟩,
    ⟨"BodyInner", ObjKind.multiFuse ["CenterInner", "NoseInner", "TailInner"], idPl⟩,
    ⟨"HollowBody", ObjKind.cut "BodyOuter" "BodyInner", idPl⟩ ]

/-! ## Embedding of create_detailed_drone.py, create_mounting_system (lines 809-859)

The function builds a list rails of three rail boxes (TopRail and two
SideRail boxes), then runs

  for rail in rails:
      for i in range(5):
          slot = doc.addObject(...)
          rails.append(slot)

iterating over the very list it extends: every outer-loop iteration
advances the list iterator by one while appending five slot objects to the
same list.  The loop is embedded with the Python list-iterator semantics:
an index into the current list, a step that processes the element at the
index and appends the five slots, and an exit taken when the index reaches
the length.  A fuel bound makes the embedding total; mountingRun returns
some rails when the loop exits within the given fuel and none otherwise. -/

def topRailObj (L H : ℚ) : Obj :=
  { name := "TopRail", kind := ObjKind.prim (ShapeKind.box (L - 120) 15 10),
    placement := ⟨cv (-(L - 120) / 2) (-7.5) (H / 2 - 10), Rot.euler 0 0 0⟩ }

def sideRailObj (L W : ℚ) (side : ℤ) : Obj :=
  { name := "SideRail_" ++ toString side,
    kind := ObjKind.prim (ShapeKind.box (L - 120) 10 15),
    placement := ⟨cv (-(L - 120) / 2) ((side : ℚ) * (W / 2 - 10)) (-7.5), Rot.euler 0 0 0⟩ }

/-- The five T-slot boxes appended while processing the rail at list index
idx (the source names them with rails.index(rail), which is the index of
the processed element). -/
def tslotObjs (L H : ℚ) (idx : ℕ) : List Obj :=
  (List.range 5).map fun (i : ℕ) =>
    { name := "TSlot_" ++ toString idx ++ "_" ++ toString i,
      kind := ObjKind.prim (ShapeKind.box 8 4 4),
      placement := ⟨cv (-(L - 120) / 2 + 20 + (i : ℚ) * 40) (-2) (H / 2 - 7),
        Rot.euler 0 0 0⟩ }

/-- The rails list right before the T-slot loop starts. -/
def initialRails (L W H : ℚ) : List Obj :=
  [topRailObj L H, sideRailObj L W (-1), sideRailObj L W 1]

/-- Fuel-bounded run of the T-slot loop of create_mounting_system. -/
def mountingRun (L H : ℚ) : ℕ → ℕ → List Obj → Option (List Obj)
  | 0, _, _ => none
  | fuel + 1, idx, rails =>
    if idx < rails.length then
      mountingRun L H fuel (idx + 1) (rails ++ tslotObjs L H idx)
    else
      some rails

/-! ## Evaluator model

Modelled from the spec: the Evaluator of section 4.4 (DAG resolution with
per-node failure recording and propagation to dependents only) is not part
of src/; the scripts delegate all evaluation to FreeCAD via doc.recompute.
A dependency graph is given by a function deps assigning to each node index
the list of its operand node indices; the spec rejects cyclic graphs before
evaluation (CyclicGraphError), so well-formed graphs are those whose
operand indices are smaller than the node index (a topological indexing),
and a dependency violating that bound is treated as never resolving.  The
kernel outcome per node is abstracted as a boolean oracle ok: a node is
Resolved exactly when its own kernel call succeeds and all its operands
are Resolved.  The definitions are fuel-bounded structural recursions
(fuel n + 1 suffices for node n, since operands have smaller indices). -/

def resolvedNodeF (ok : ℕ → Bool) (deps : ℕ → List ℕ) : ℕ → ℕ → Bool
  | 0, _ => false
  | fuel + 1, n =>
    ok n && (deps n).all fun d => if d < n then resolvedNodeF ok deps fuel d else false

/-- Whether node n is Resolved (true) or Failed (false) after the
Evaluator walk. -/
def resolvedNode (ok : ℕ → Bool) (deps : ℕ → List ℕ) (n : ℕ) : Bool :=
  resolvedNodeF ok deps (n + 1) n

def dependsOnF (deps : ℕ → List ℕ) (x : ℕ) : ℕ → ℕ → Bool
  | 0, _ => false
  | fuel + 1, n =>
    (n == x) || (deps n).any fun d => if d < n then dependsOnF deps x fuel d else false

/-- Whether node n equals x or transitively depends on x. -/
def dependsOn (deps : ℕ → List ℕ) (x n : ℕ) : Bool :=
  dependsOnF deps x (n + 1) n

/-- The BuildReport over nodes 0..N-1: each node identity together with
its terminal status (true for Resolved, false for Failed). -/
def buildReport (ok : ℕ → Bool) (deps : ℕ → List ℕ) (N : ℕ) : List (ℕ × Bool) :=
  (List.range N).map fun n => (n, resolvedNode ok deps n)

/-! ## Memoizing evaluator model

Modelled from the spec: the memoization discipline of sections 2 and 4.4
(a node already Resolved is never re-evaluated even if referenced as an
operand by multiple parents; the resolved solid is shared read-only) is
not part of src/.  The state carries the cache of already-resolved node
indices and the log of kernel calls in order; evaluating a node that is in
the cache reads it without any kernel call, otherwise its in-bound
operands are evaluated first, one kernel call is logged for the node, and
the node enters the cache. -/

structure MemoState where
  cache : List ℕ
  log : List ℕ
deriving DecidableEq

def memoEvalF (deps : ℕ → List ℕ) : ℕ → ℕ → MemoState → MemoState
  | 0, _, st => st
  | fuel + 1, n, st =>
    if n ∈ st.cache then st
    else
      let st1 := (deps n).foldl
        (fun acc d => if d < n then memoEvalF deps fuel d acc else acc) st
      ⟨n :: st1.cache, st1.log ++ [n]⟩

/-- The per-operand step of the memoized evaluation of node n: an in-bound
operand is evaluated, anything else leaves the state unchanged. -/
def memoStep (deps : ℕ → List ℕ) (fuel n : ℕ) (acc : MemoState) (d : ℕ) : MemoState :=
  if d < n then memoEvalF deps fuel d acc else acc

/-- Memoized evaluation of node n (fuel n + 1 suffices since operands have
smaller indices). -/
def memoEval (deps : ℕ → List ℕ) (n : ℕ) (st : MemoState) : MemoState :=
  memoEvalF deps (n + 1) n st

/-- Evaluate a list of root nodes from the empty per-build state. -/
def evalRoots (deps : ℕ → List ℕ) (roots : List ℕ) : MemoState :=
  roots.foldl (fun st r => memoEval deps r st) ⟨[], []⟩

/-! ## Geometric kernel model

Modelled from the spec: the geometric kernel (section 6) is an external
collaborator, not part of src/ (the scripts call FreeCAD).  A Solid is a
nonempty finite set of unit cells of the integer grid: the kernel must
report empty results as KernelError rather than produce an empty solid, so
the solids in circulation are nonempty.  combine is the boolean-operation
entry point for two operands; its result is the set union or difference,
returned as a KernelError when empty.  volume counts cells. -/

def Cell : Type := ℤ × ℤ × ℤ

instance : DecidableEq Cell := instDecidableEqProd

def Solid : Type := { s : Finset Cell // s.Nonempty }

inductive KernelOp
  | union
  | subtract
deriving DecidableEq

inductive KernelErr
  | emptyResult
deriving DecidableEq

def combine (op : KernelOp) (A B : Solid) : Except KernelErr Solid :=
  let r : Finset Cell :=
    match op with
    | KernelOp.union => A.val ∪ B.val
    | KernelOp.subtract => A.val \ B.val
  if h : r.Nonempty then Except.ok ⟨r, h⟩ else Except.error KernelErr.emptyResult

def volume (A : Solid) : ℕ := A.val.card

/-- A one-cell solid. -/
def cellSolid (c : Cell) : Solid := ⟨{c}, Finset.singleton_nonempty c⟩

/-- Concrete solid used to instantiate kernel-contract theorems. -/
def solidA : Solid := cellSolid (0, 0, 0)

/-- Concrete solid not intersecting solidA. -/
def solidB : Solid := cellSolid (1, 0, 0)

/-- Invariant of the memoized evaluation state: the kernel-call log has no
duplicates and logs exactly the cached nodes. -/
def MemoInv (st : MemoState) : Prop :=
  st.log.Nodup ∧ ∀ y, y ∈ st.cache ↔ y ∈ st.log

/-- Cache closure: every cached node has all its in-bound operands cached. -/
def MemoClosed (deps : ℕ → List ℕ) (st : MemoState) : Prop :=
  ∀ m ∈ st.cache, ∀ d ∈ deps m, d < m → d ∈ st.cache

/-- Concrete kernel oracle failing exactly at node 1, used to instantiate
the failure-isolation theorem. -/
def wOk : ℕ → Bool := fun y => !(y == 1)

/-- Concrete dependency graph: node 2 depends on node 1, node 3 depends on
node 0, all other nodes have no operands. -/
def wDeps : ℕ → List ℕ := fun n => if n = 2 then [1] else if n = 3 then [0] else []

/-- Concrete dependency graph in which node 1 is an operand of the two
parents 4 and 5. -/
def wDepsShared : ℕ → List ℕ := fun n => if n = 4 then [1] else if n = 5 then [1] else []

/-! ## Lemmas -/

/-- Once the T-slot loop index is inside the list, it stays inside: every
processed rail appends five slots while the index advances by one. -/
lemma mountingRun_none_of_lt (L H : ℚ) :
    ∀ fuel idx rails, idx < rails.length → mountingRun L H fuel idx rails = none := by
  intro fuel
  induction fuel with
  | zero => intro idx rails _; rfl
  | succ f ih =>
      intro idx rails h
      unfold mountingRun
      rw [if_pos h]
      apply ih
      have h5 : (tslotObjs L H idx).length = 5 := by
        simp only [tslotObjs, List.length_map, List.length_range]
      simp only [List.length_append, h5]
      omega

/-! ## Theorems for the claims -/

/-- Claim C1 (code side): at the invalid Parameter Set wallThickness = 200
with height = 180 (length 350, width 280), create_main_body of
create_advanced_hull.py raises no ValidationError at all: its build trace
contains no validation event, it adds the CenterInner box with the
negative derived height 180 - 2 * 200 = -220, and it makes kernel
recompute calls, contradicting the claimed fail-fast validation. -/
theorem C1_no_validation_in_failing_build :
    advBadTrace.filter isValidationEv = [] ∧
    BuildEvent.recompute ∈ advBadTrace ∧
    BuildEvent.add ⟨"CenterInner",
      ObjKind.prim (ShapeKind.box (350 - 100 - 2 * 200) (280 - 2 * 200) (180 - 2 * 200)),
      ⟨cv (-(350 - 100) / 2 + 200) (-280 / 2 + 200) (-180 / 2 + 200), Rot.euler 0 0 0⟩⟩
      ∈ advBadTrace ∧
    ((180 - 2 * 200 : ℚ) = -220 ∧ (-220 : ℚ) < 0) := by
  refine ⟨rfl, ?_, ?_, by norm_num⟩
  · simp [advBadTrace, advMainBodyTrace]
  · simp [advBadTrace, advMainBodyTrace]

/-- Claim C2 (code side): the T-slot loop of create_mounting_system in
create_detailed_drone.py iterates over the rails list while appending five
slots per processed element, so the index never reaches the length and the
loop never exits: for every fuel bound the run is still inside the loop,
hence create_mounting_system never returns and the build never
terminates. -/
theorem C2_mounting_system_never_returns (fuel : ℕ) :
    mountingRun 350 180 fuel 0 (initialRails 350 280 180) = none :=
  mountingRun_none_of_lt 350 180 fuel 0 (initialRails 350 280 180) (by decide)

/-- Claim C8: in create_hull.py the persisted document is saved before the
STEP export is attempted; an export failure is caught, reported, and
leaves the saved document untouched while the rest of the run (the
specification printout) still executes. -/
theorem C8_export_failure_does_not_roll_back (e : String) :
    (runHullSaveAndExport (Except.error e)).savedDoc = some hullDocFile ∧
    (runHullSaveAndExport (Except.error e)).savedDoc =
      (runHullSaveAndExport (Except.ok ())).savedDoc ∧
    (runHullSaveAndExport (Except.error e)).exportErrorReported = true ∧
    (runHullSaveAndExport (Except.error e)).specsPrinted = true :=
  ⟨rfl, rfl, rfl, rfl⟩

/-- Claim C9: the six-thruster layout of create_advanced_hull.py at the
module parameters builds exactly six top-level assemblies, their names are
pairwise distinct, and the six mount placements are pairwise distinct. -/
theorem C9_six_distinct_thruster_assemblies :
    (layoutAssemblies stdThrusterLayout).length = 6 ∧
    ((layoutAssemblies stdThrusterLayout).map Obj.name).Nodup ∧
    (layoutMountPositions stdThrusterLayout).Nodup := by
  refine ⟨by decide, by decide, ?_⟩
  simp only [layoutMountPositions, stdThrusterLayout, createThrusterLayout,
    createThrusterMount, List.map, List.headD, cv]
  norm_num [List.nodup_cons, Placement.mk.injEq, Vec3C.mk.injEq]

/-- Claim C10: at the shared parameter values (350 x 280 x 180, wall 4),
create_main_body of create_detailed_drone.py and create_body of
create_optimized_detailed_drone.py construct identical HollowBody solids:
the two object lists agree primitive by primitive, and the final object is
the Cut of BodyOuter against BodyInner. -/
theorem C10_detailed_and_optimized_bodies_identical :
    detailedMainBodyObjs 350 280 180 4 = optimizedBodyObjs 350 280 180 4 ∧
    (detailedMainBodyObjs 350 280 180 4).getLast? =
      some ⟨"HollowBody", ObjKind.cut "BodyOuter" "BodyInner", idPl⟩ := by
  refine ⟨rfl, rfl⟩

/-- Claim C4: two runs of the thruster-layout builder on the same
Parameter Set produce identical node graphs: the same objects, the same
top-level assemblies, and therefore the same volumes under any
deterministic kernel volume assignment. -/
theorem C4_identical_builds_are_identical (L W H td tl : ℚ)
    (r1 r2 : List (List Obj × Obj))
    (h1 : r1 = createThrusterLayout L W H td tl)
    (h2 : r2 = createThrusterLayout L W H td tl) :
    r1 = r2 ∧
    layoutAssemblies r1 = layoutAssemblies r2 ∧
    ∀ vol : Obj → ℚ, (layoutAssemblies r1).map vol = (layoutAssemblies r2).map vol := by
  subst h1
  subst h2
  exact ⟨rfl, rfl, fun _ => rfl⟩

/-- Witness for C4 at the module parameters of create_advanced_hull.py. -/
theorem C4_identical_builds_witness :
    stdThrusterLayout = stdThrusterLayout ∧
    layoutAssemblies stdThrusterLayout = layoutAssemblies stdThrusterLayout ∧
    ∀ vol : Obj → ℚ,
      (layoutAssemblies stdThrusterLayout).map vol =
        (layoutAssemblies stdThrusterLayout).map vol :=
  C4_identical_builds_are_identical 350 280 180 60 80
    stdThrusterLayout stdThrusterLayout rfl rfl

/-- Claim C6: subtracting a solid that does not intersect the minuend
succeeds (no KernelError) and returns a solid volume-equal to the minuend.
Proved of the kernel model: the cell-set difference equals the minuend
when the operands are disjoint, and the minuend is nonempty. -/
theorem C6_subtract_nonintersecting_returns_minuend (A B : Solid)
    (h : A.val ∩ B.val = ∅) :
    ∃ C, combine KernelOp.subtract A B = Except.ok C ∧ volume C = volume A := by
  have hd : Disjoint A.val B.val := Finset.disjoint_iff_inter_eq_empty.2 h
  have hs : A.val \ B.val = A.val := Finset.sdiff_eq_self_iff_disjoint.2 hd
  refine ⟨A, ?_, rfl⟩
  simp only [combine, hs]
  rw [dif_pos A.2]
  exact congrArg Except.ok (Subtype.ext rfl)

/-- Witness for C6 at two disjoint one-cell solids. -/
theorem C6_subtract_witness :
    solidA.val ∩ solidB.val = ∅ ∧
    ∃ C, combine KernelOp.subtract solidA solidB = Except.ok C ∧
      volume C = volume solidA :=
  ⟨by decide, C6_subtract_nonintersecting_returns_minuend solidA solidB (by decide)⟩

/-- Claim C7: the union of two solids succeeds and its volume is at most
the sum of the operand volumes, with equality exactly when the operands do
not intersect.  Proved of the kernel model via the cell-count identity for
unions and intersections. -/
theorem C7_union_volume_bound (A B : Solid) :
    ∃ C, combine KernelOp.union A B = Except.ok C ∧
      volume C ≤ volume A + volume B ∧
      (volume C = volume A + volume B ↔ A.val ∩ B.val = ∅) := by
  have hne : (A.val ∪ B.val).Nonempty := by
    obtain ⟨a, ha⟩ := A.2
    exact ⟨a, Finset.mem_union_left _ ha⟩
  refine ⟨⟨A.val ∪ B.val, hne⟩, ?_, ?_, ?_⟩
  · simp only [combine]
    rw [dif_pos hne]
  · exact Finset.card_union_le A.val B.val
  · constructor
    · intro hcard
      have hid := Finset.card_union_add_card_inter A.val B.val
      simp only [volume] at hcard
      have hz : (A.val ∩ B.val).card = 0 := by omega
      exact Finset.card_eq_zero.1 hz
    · intro hint
      have hd : Disjoint A.val B.val := Finset.disjoint_iff_inter_eq_empty.2 hint
      have := Finset.card_union_of_disjoint hd
      simpa [volume] using this

/-- Resolution status does not depend on the fuel bound once the fuel
exceeds the node index. -/
lemma resolvedNodeF_fuel_irrel (ok : ℕ → Bool) (deps : ℕ → List ℕ) :
    ∀ f g n, n < f → n < g → resolvedNodeF ok deps f n = resolvedNodeF ok deps g n := by
  intro f
  induction f with
  | zero => intro g n hf; omega
  | succ f ih =>
      intro g n hf hg
      cases g with
      | zero => omega
      | succ g =>
          simp only [resolvedNodeF]
          have hfun : (fun d => if d < n then resolvedNodeF ok deps f d else false)
              = fun d => if d < n then resolvedNodeF ok deps g d else false := by
            funext d
            by_cases hd : d < n
            · simp only [if_pos hd]
              exact ih g d (by omega) (by omega)
            · simp only [if_neg hd]
          rw [hfun]

/-- One-step unfolding of the resolution status. -/
lemma resolvedNode_unfold (ok : ℕ → Bool) (deps : ℕ → List ℕ) (n : ℕ) :
    resolvedNode ok deps n
      = (ok n && (deps n).all fun d => if d < n then resolvedNode ok deps d else false) := by
  have h1 : resolvedNode ok deps n
      = (ok n && (deps n).all fun d => if d < n then resolvedNodeF ok deps n d else false) := rfl
  rw [h1]
  have hfun : (fun d => if d < n then resolvedNodeF ok deps n d else false)
      = fun d => if d < n then resolvedNode ok deps d else false := by
    funext d
    by_cases hd : d < n
    · simp only [if_pos hd]
      exact resolvedNodeF_fuel_irrel ok deps n (d + 1) d hd (Nat.lt_succ_self d)
    · simp only [if_neg hd]
  rw [hfun]

/-- Dependence testing does not depend on the fuel bound once the fuel
exceeds the node index. -/
lemma dependsOnF_fuel_irrel (deps : ℕ → List ℕ) (x : ℕ) :
    ∀ f g n, n < f → n < g → dependsOnF deps x f n = dependsOnF deps x g n := by
  intro f
  induction f with
  | zero => intro g n hf; omega
  | succ f ih =>
      intro g n hf hg
      cases g with
      | zero => omega
      | succ g =>
          simp only [dependsOnF]
          have hfun : (fun d => if d < n then dependsOnF deps x f d else false)
              = fun d => if d < n then dependsOnF deps x g d else false := by
            funext d
            by_cases hd : d < n
            · simp only [if_pos hd]
              exact ih g d (by omega) (by omega)
            · simp only [if_neg hd]
          rw [hfun]

/-- One-step unfolding of the dependence test. -/
lemma dependsOn_unfold (deps : ℕ → List ℕ) (x n : ℕ) :
    dependsOn deps x n
      = ((n == x) || (deps n).any fun d => if d < n then dependsOn deps x d else false) := by
  have h1 : dependsOn deps x n
      = ((n == x) || (deps n).any fun d => if d < n then dependsOnF deps x n d else false) := rfl
  rw [h1]
  have hfun : (fun d => if d < n then dependsOnF deps x n d else false)
      = fun d => if d < n then dependsOn deps x d else false := by
    funext d
    by_cases hd : d < n
    · simp only [if_pos hd]
      exact dependsOnF_fuel_irrel deps x n (d + 1) d hd (Nat.lt_succ_self d)
    · simp only [if_neg hd]
  rw [hfun]

/-- Claim C3: with the kernel failing exactly at node x, the Evaluator
records the failure against x, every node not transitively depending on x
is Resolved and present in the BuildReport, a failed node always depends
on x (the failure is propagated only to dependents), and x itself is
reported Failed.  The well-formedness hypothesis says the graph is in
topological index order, which the spec guarantees by rejecting cycles
before evaluation. -/
theorem C3_kernel_failure_isolated (ok : ℕ → Bool) (deps : ℕ → List ℕ) (x : ℕ)
    (hwf : ∀ n, ∀ d ∈ deps n, d < n)
    (hx : ok x = false) (hok : ∀ y, y ≠ x → ok y = true) :
    resolvedNode ok deps x = false ∧
    (∀ n, dependsOn deps x n = false → resolvedNode ok deps n = true) ∧
    (∀ n, resolvedNode ok deps n = false → dependsOn deps x n = true) ∧
    (∀ N n, n < N → dependsOn deps x n = false → (n, true) ∈ buildReport ok deps N) ∧
    (∀ N, x < N → (x, false) ∈ buildReport ok deps N) := by
  have hxf : resolvedNode ok deps x = false := by
    rw [resolvedNode_unfold, hx, Bool.false_and]
  have hres : ∀ n, dependsOn deps x n = false → resolvedNode ok deps n = true := by
    intro n
    induction n using Nat.strong_induction_on with
    | _ n ih =>
      intro hdep
      have hnx : n ≠ x := by
        intro he
        rw [dependsOn_unfold, he] at hdep
        simp at hdep
      rw [resolvedNode_unfold, hok n hnx, Bool.true_and, List.all_eq_true]
      intro d hd
      have hdn : d < n := hwf n d hd
      rw [if_pos hdn]
      apply ih d hdn
      by_cases hdd : dependsOn deps x d = true
      · exfalso
        have hany : ((deps n).any fun e => if e < n then dependsOn deps x e else false)
            = true :=
          List.any_eq_true.2 ⟨d, hd, by rw [if_pos hdn]; exact hdd⟩
        rw [dependsOn_unfold, hany, Bool.or_true] at hdep
        exact Bool.noConfusion hdep
      · exact Bool.eq_false_iff.2 hdd
  refine ⟨hxf, hres, ?_, ?_, ?_⟩
  · intro n hn
    by_cases hd : dependsOn deps x n = true
    · exact hd
    · have := hres n (Bool.eq_false_iff.2 hd)
      rw [this] at hn
      exact absurd hn (by simp)
  · intro N n hn hdep
    exact List.mem_map.2 ⟨n, List.mem_range.2 hn, by rw [hres n hdep]⟩
  · intro N hN
    exact List.mem_map.2 ⟨x, List.mem_range.2 hN, by rw [hxf]⟩

/-- Witness for C3: in the concrete graph wDeps with the kernel failing
exactly at node 1, node 1 is recorded Failed while node 3 (which depends
only on node 0) is Resolved and present in the BuildReport. -/
theorem C3_kernel_failure_isolated_witness :
    resolvedNode wOk wDeps 1 = false ∧
    resolvedNode wOk wDeps 3 = true ∧
    (3, true) ∈ buildReport wOk wDeps 4 := by
  have hwf : ∀ n, ∀ d ∈ wDeps n, d < n := by
    intro n d hd
    by_cases h2 : n = 2
    · subst h2
      simp [wDeps] at hd
      omega
    · by_cases h3 : n = 3
      · subst h3
        simp [wDeps] at hd
        omega
      · simp [wDeps, h2, h3] at hd
  have hok : ∀ y, y ≠ 1 → wOk y = true := by
    intro y hy
    simp [wOk]
    exact hy
  have h := C3_kernel_failure_isolated wOk wDeps 1 hwf (by decide) hok
  exact ⟨h.1, h.2.1 3 (by decide), h.2.2.2.1 4 3 (by decide) (by decide)⟩

/-- Unfolding of one memoized evaluation step in terms of memoStep. -/
lemma memoEvalF_succ (deps : ℕ → List ℕ) (fuel n : ℕ) (st : MemoState) :
    memoEvalF deps (fuel + 1) n st
      = if n ∈ st.cache then st
        else
          ⟨n :: ((deps n).foldl (memoStep deps fuel n) st).cache,
           ((deps n).foldl (memoStep deps fuel n) st).log ++ [n]⟩ := rfl

/-- A property preserved by every fold step is preserved by the fold. -/
lemma foldl_pres {α β : Type} (P : β → Prop) (g : β → α → β)
    (hg : ∀ st a, P st → P (g st a)) :
    ∀ (l : List α) (st : β), P st → P (l.foldl g st) := by
  intro l
  induction l with
  | nil => intro st h; exact h
  | cons a l ih =>
      intro st h
      rw [List.foldl_cons]
      exact ih (g st a) (hg st a h)

/-- Folding the per-operand steps of node n only caches nodes below n. -/
lemma memoFold_cache_bound (deps : ℕ → List ℕ) (fuel n : ℕ)
    (hb : ∀ m st y, y ∈ (memoEvalF deps fuel m st).cache → y ∈ st.cache ∨ y ≤ m) :
    ∀ (l : List ℕ) (st : MemoState) (y : ℕ),
      y ∈ (l.foldl (memoStep deps fuel n) st).cache → y ∈ st.cache ∨ y < n := by
  intro l
  induction l with
  | nil => intro st y h; exact Or.inl h
  | cons d l ih =>
      intro st y h
      rw [List.foldl_cons] at h
      rcases ih _ y h with h1 | h1
      · unfold memoStep at h1
        by_cases hdn : d < n
        · rw [if_pos hdn] at h1
          rcases hb d st y h1 with h2 | h2
          · exact Or.inl h2
          · exact Or.inr (by omega)
        · rw [if_neg hdn] at h1
          exact Or.inl h1
      · exact Or.inr h1

/-- Evaluating node n only caches nodes up to n. -/
lemma memoEvalF_cache_bound (deps : ℕ → List ℕ) :
    ∀ fuel n st y, y ∈ (memoEvalF deps fuel n st).cache → y ∈ st.cache ∨ y ≤ n := by
  intro fuel
  induction fuel with
  | zero => intro n st y h; exact Or.inl h
  | succ f ih =>
      intro n st y h
      rw [memoEvalF_succ] at h
      by_cases hc : n ∈ st.cache
      · rw [if_pos hc] at h
        exact Or.inl h
      · rw [if_neg hc] at h
        rcases List.mem_cons.1 h with he | he
        · exact Or.inr (by omega)
        · rcases memoFold_cache_bound deps f n (fun m st0 y0 => ih m st0 y0)
              (deps n) st y he with h1 | h1
          · exact Or.inl h1
          · exact Or.inr (by omega)

/-- The cache only grows during memoized evaluation. -/
lemma memoEvalF_cache_mono (deps : ℕ → List ℕ) :
    ∀ fuel n st y, y ∈ st.cache → y ∈ (memoEvalF deps fuel n st).cache := by
  intro fuel
  induction fuel with
  | zero => intro n st y h; exact h
  | succ f ih =>
      intro n st y hy
      rw [memoEvalF_succ]
      by_cases hc : n ∈ st.cache
      · rw [if_pos hc]; exact hy
      · rw [if_neg hc]
        refine List.mem_cons_of_mem n ?_
        refine foldl_pres (fun st0 => y ∈ st0.cache) (memoStep deps f n) ?_ (deps n) st hy
        intro st0 d h0
        unfold memoStep
        by_cases hdn : d < n
        · rw [if_pos hdn]; exact ih d st0 y h0
        · rw [if_neg hdn]; exact h0

/-- With positive fuel, evaluating node n puts n in the cache. -/
lemma memoEvalF_self_mem (deps : ℕ → List ℕ) (fuel n : ℕ) (st : MemoState)
    (hf : 0 < fuel) : n ∈ (memoEvalF deps fuel n st).cache := by
  cases fuel with
  | zero => omega
  | succ f =>
      rw [memoEvalF_succ]
      by_cases hc : n ∈ st.cache
      · rw [if_pos hc]; exact hc
      · rw [if_neg hc]; exact List.mem_cons_self n _

/-- Memoized evaluation preserves the state invariant: the kernel-call log
stays duplicate-free and logs exactly the cached nodes. -/
lemma memoEvalF_inv (deps : ℕ → List ℕ) :
    ∀ fuel n st, MemoInv st → MemoInv (memoEvalF deps fuel n st) := by
  intro fuel
  induction fuel with
  | zero => intro n st h; exact h
  | succ f ih =>
      intro n st hst
      rw [memoEvalF_succ]
      by_cases hc : n ∈ st.cache
      · rw [if_pos hc]; exact hst
      · rw [if_neg hc]
        have hst1 : MemoInv ((deps n).foldl (memoStep deps f n) st) := by
          refine foldl_pres MemoInv (memoStep deps f n) ?_ (deps n) st hst
          intro st0 d h0
          unfold memoStep
          by_cases hdn : d < n
          · rw [if_pos hdn]; exact ih d st0 h0
          · rw [if_neg hdn]; exact h0
        have hnc : n ∉ ((deps n).foldl (memoStep deps f n) st).cache := by
          intro hn
          rcases memoFold_cache_bound deps f n
              (fun m st0 y0 => memoEvalF_cache_bound deps f m st0 y0)
              (deps n) st n hn with h1 | h1
          · exact hc h1
          · omega
        have hnl : n ∉ ((deps n).foldl (memoStep deps f n) st).log :=
          fun hn => hnc ((hst1.2 n).2 hn)
        constructor
        · rw [List.nodup_append]
          refine ⟨hst1.1, List.nodup_singleton n, ?_⟩
          intro a ha hb
          rw [List.mem_singleton] at hb
          subst hb
          exact hnl ha
        · intro y
          constructor
          · intro hy
            rcases List.mem_cons.1 hy with he | he
            · subst he
              exact List.mem_append.2 (Or.inr (List.mem_singleton.2 rfl))
            · exact List.mem_append.2 (Or.inl ((hst1.2 y).1 he))
          · intro hy
            rcases List.mem_append.1 hy with he | he
            · exact List.mem_cons_of_mem n ((hst1.2 y).2 he)
            · rw [List.mem_singleton] at he
              subst he
              exact List.mem_cons_self y _

/-- After folding the per-operand steps of node n, every in-bound operand
listed is cached. -/
lemma memoFold_deps_mem (deps : ℕ → List ℕ) (f n : ℕ) (hf : n ≤ f) :
    ∀ (l : List ℕ) (st : MemoState) (d : ℕ), d ∈ l → d < n →
      d ∈ (l.foldl (memoStep deps f n) st).cache := by
  intro l
  induction l with
  | nil =>
      intro st d hd hdn
      exact absurd hd (List.not_mem_nil d)
  | cons e l ih =>
      intro st d hd hdn
      rw [List.foldl_cons]
      rcases List.mem_cons.1 hd with he | he
      · subst he
        refine foldl_pres (fun st0 => d ∈ st0.cache) (memoStep deps f n) ?_ l
          (memoStep deps f n st d) ?_
        · intro st0 a h0
          unfold memoStep
          by_cases han : a < n
          · rw [if_pos han]; exact memoEvalF_cache_mono deps f a st0 d h0
          · rw [if_neg han]; exact h0
        · unfold memoStep
          rw [if_pos hdn]
          exact memoEvalF_self_mem deps f d st (by omega)
      · exact ih (memoStep deps f n st e) d he hdn

/-- Memoized evaluation preserves cache closure under in-bound operands. -/
lemma memoEvalF_closed (deps : ℕ → List ℕ) :
    ∀ fuel n st, n < fuel → MemoClosed deps st → MemoClosed deps (memoEvalF deps fuel n st) := by
  intro fuel
  induction fuel with
  | zero => intro n st h; omega
  | succ f ih =>
      intro n st hn hst
      rw [memoEvalF_succ]
      by_cases hc : n ∈ st.cache
      · rw [if_pos hc]; exact hst
      · rw [if_neg hc]
        have hst1 : MemoClosed deps ((deps n).foldl (memoStep deps f n) st) := by
          refine foldl_pres (MemoClosed deps) (memoStep deps f n) ?_ (deps n) st hst
          intro st0 d h0
          unfold memoStep
          by_cases hdn : d < n
          · rw [if_pos hdn]
            exact ih d st0 (by omega) h0
          · rw [if_neg hdn]; exact h0
        intro m hm d hd hdm
        rcases List.mem_cons.1 hm with he | he
        · subst he
          exact List.mem_cons_of_mem _
            (memoFold_deps_mem deps f m (by omega) (deps m) st d hd hdm)
        · exact List.mem_cons_of_mem _ (hst1 m he d hd hdm)

/-- Evaluating the roots from the empty state yields an invariant state. -/
lemma evalRoots_inv (deps : ℕ → List ℕ) (roots : List ℕ) :
    MemoInv (evalRoots deps roots) := by
  refine foldl_pres MemoInv (fun st r => memoEval deps r st) ?_ roots ⟨[], []⟩ ?_
  · intro st r h
    exact memoEvalF_inv deps (r + 1) r st h
  · exact ⟨List.nodup_nil, fun y => Iff.rfl⟩

/-- Evaluating the roots from the empty state yields a closed cache. -/
lemma evalRoots_closed (deps : ℕ → List ℕ) (roots : List ℕ) :
    MemoClosed deps (evalRoots deps roots) := by
  refine foldl_pres (MemoClosed deps) (fun st r => memoEval deps r st) ?_ roots ⟨[], []⟩ ?_
  · intro st r h
    exact memoEvalF_closed deps (r + 1) r st (Nat.lt_succ_self r) h
  · intro m hm
    exact absurd hm (List.not_mem_nil m)

/-- Every requested root ends up cached. -/
lemma evalRoots_root_mem (deps : ℕ → List ℕ) :
    ∀ (roots : List ℕ) (st : MemoState) (r : ℕ), r ∈ roots →
      r ∈ (roots.foldl (fun st x => memoEval deps x st) st).cache := by
  intro roots
  induction roots with
  | nil => intro st r hr; exact absurd hr (List.not_mem_nil r)
  | cons a l ih =>
      intro st r hr
      rw [List.foldl_cons]
      rcases List.mem_cons.1 hr with he | he
      · subst he
        refine foldl_pres (fun st0 => r ∈ st0.cache) (fun st x => memoEval deps x st) ?_ l
          (memoEval deps r st) ?_
        · intro st0 x h0
          exact memoEvalF_cache_mono deps (x + 1) x st0 r h0
        · exact memoEvalF_self_mem deps (r + 1) r st (Nat.succ_pos r)
      · exact ih (memoEval deps a st) r he

/-- Claim C5: a node that is an operand of more than one parent in a
single build is evaluated by the kernel exactly once: its identity appears
exactly once in the kernel-call log of the memoized evaluation, the second
referencing parent reading the cached resolution instead. -/
theorem C5_shared_operand_evaluated_once (deps : ℕ → List ℕ) (roots : List ℕ)
    (x p1 p2 : ℕ) (hp1 : p1 ∈ roots) (hp2 : p2 ∈ roots) (hne : p1 ≠ p2)
    (hd1 : x ∈ deps p1) (hd2 : x ∈ deps p2) (hx1 : x < p1) (hx2 : x < p2) :
    (evalRoots deps roots).log.count x = 1 := by
  have hinv := evalRoots_inv deps roots
  have hcl := evalRoots_closed deps roots
  have hp1c : p1 ∈ (evalRoots deps roots).cache :=
    evalRoots_root_mem deps roots ⟨[], []⟩ p1 hp1
  have hxc : x ∈ (evalRoots deps roots).cache := hcl p1 hp1c x hd1 hx1
  have hxl : x ∈ (evalRoots deps roots).log := (hinv.2 x).1 hxc
  exact List.count_eq_one_of_mem hinv.1 hxl

/-- Witness for C5: node 1 is an operand of the two parents 4 and 5; its
kernel-call count over the whole build is one. -/
theorem C5_shared_operand_witness :
    (evalRoots wDepsShared [4, 5]).log.count 1 = 1 :=
  C5_shared_operand_evaluated_once wDepsShared [4, 5] 1 4 5 (by decide) (by decide)
    (by decide) (by decide) (by decide) (by decide) (by decide)

end Fishdrone
